import Mathlib

/-!
Verification of the Metrics Computation & Aggregation Engine of the
analytics-performance-tester repository.

The embedding models the three Python source files:
* `src/analysis/dashboard_generator.py` — `calculate_detailed_metrics`
  (the Run Metrics Calculator) and `auto_detect_result_files`
  (the Result Set Resolver);
* `src/analysis/analyze_multi_run_results.py` — the per-run collection loop
  of `analyze_multi_run` and the per-metric aggregation of `print_summary`
  (the Cross-Run Aggregator);
* `src/analysis/dashboard-generator.py` — the second copy of
  `calculate_detailed_metrics` (no `language` tag).

Modelling conventions:
* A pandas DataFrame read from a JSONL record file is a `List Record`; a
  column exists in the frame iff some record of the whole file carries the
  field, and a record lacking the field holds NaN in that column.
* Numbers are `ℚ`.  A float value that can be NaN is `Option ℚ`, with
  `none` for NaN; pandas `Series.min`, `.max`, `.mean`, `.std` skip NaN
  values, and Python float arithmetic propagates NaN, which the option
  helpers below reproduce.
* pandas `Series.std` (ddof = 1) is an irrational square root, so the model
  carries its square, the N−1 sample variance: `std_latency` and the
  aggregate standard deviations below hold the square of the source value.
  Every statement about a standard deviation is phrased on the square,
  which is faithful because `Real.sqrt` is strictly monotone on
  nonnegatives and NaN-ness is unchanged by squaring.
* Timestamps are already normalised to milliseconds (the code's
  `hasattr(…, 'timestamp')` branch converts pandas Timestamp objects to
  epoch milliseconds; the numeric branch uses the numbers as they are, in
  milliseconds).
-/

namespace Analytics

/-- One request outcome, one JSONL line of a record store.
`timestamp` and `start_time` are optional fields; `none` means the record
does not carry the field (NaN in the pandas column). -/
structure Record where
  success : Bool
  duration_ms : ℚ
  timestamp : Option ℚ
  start_time : Option ℚ
  deriving DecidableEq, Repr

/-- The dictionary returned by `calculate_detailed_metrics` in
`dashboard_generator.py`.  `std_latency` holds the square of the source's
`latencies.std()` (see the file header); `none` is NaN. -/
structure RunMetrics where
  total_requests : ℕ
  success_rate : ℚ
  avg_latency : ℚ
  min_latency : ℚ
  max_latency : ℚ
  std_latency : Option ℚ
  p95_latency : ℚ
  p99_latency : ℚ
  throughput : Option ℚ
  test_duration_s : Option ℚ
  language : String
  deriving DecidableEq, Repr

/-- pandas `Series.min` over the non-NaN values of a column: `none` on an
empty column (NaN). -/
def listMin : List ℚ → Option ℚ
  | [] => none
  | x :: xs => some (xs.foldl min x)

/-- pandas `Series.max` over the non-NaN values of a column: `none` on an
empty column (NaN). -/
def listMax : List ℚ → Option ℚ
  | [] => none
  | x :: xs => some (xs.foldl max x)

/-- `listMin` with the (unreachable at its call sites) empty case mapped
to 0. -/
def listMinD (l : List ℚ) : ℚ := (listMin l).getD 0

/-- `listMax` with the (unreachable at its call sites) empty case mapped
to 0. -/
def listMaxD (l : List ℚ) : ℚ := (listMax l).getD 0

/-- pandas `Series.mean`: sum over length (call sites guarantee a
non-empty series; on `[]` the `ℚ` convention 0/0 = 0 applies). -/
def seriesMean (l : List ℚ) : ℚ := l.sum / l.length

/-- The square of pandas `Series.std` (default ddof = 1): the N−1 sample
variance, NaN (`none`) when fewer than two values are present. -/
def seriesVar (l : List ℚ) : Option ℚ :=
  if l.length ≤ 1 then none
  else some ((l.map (fun x => (x - seriesMean l) ^ 2)).sum / ((l.length : ℚ) - 1))

/-- pandas `Series.quantile` with the default linear interpolation: with
the values sorted ascending and `h = q * (n - 1)`, interpolate between the
order statistics at `⌊h⌋` and `⌈h⌉`. -/
def quantile (l : List ℚ) (q : ℚ) : ℚ :=
  let s := List.insertionSort (· ≤ ·) l
  let h : ℚ := q * ((l.length : ℚ) - 1)
  let lo : ℕ := (⌊h⌋).toNat
  let hi : ℕ := (⌈h⌉).toNat
  s.getD lo 0 + (h - (lo : ℚ)) * (s.getD hi 0 - s.getD lo 0)

/-- Float subtraction with NaN propagation. -/
def optSub : Option ℚ → Option ℚ → Option ℚ
  | some a, some b => some (a - b)
  | _, _ => none

/-- Division of a milliseconds value by 1000.0, NaN-propagating. -/
def msToS : Option ℚ → Option ℚ := Option.map (fun x => x / 1000)

/-- Python `max(x, 1.0)`: the identity on NaN (`1.0 > nan` is false, so
`max` keeps its first argument), the usual maximum otherwise. -/
def pyMaxOne : Option ℚ → Option ℚ := Option.map (fun x => max x 1)

/-- Division `n / d` of a known numerator by a possibly-NaN denominator. -/
def optDivBy (n : ℚ) : Option ℚ → Option ℚ := Option.map (fun d => n / d)

/-- Whether `'timestamp' in df.columns`: a pandas column exists iff some
record of the file carries the field.  Row filtering (`df[df['success']]`)
keeps the column set, so the check on `successful_df.columns` is the check
on the whole store. -/
def hasTimestampColumn (df : List Record) : Bool :=
  df.any (fun r => r.timestamp.isSome)

/-- The non-NaN entries of `successful_df['timestamp']`. -/
def successfulTimestamps (succ : List Record) : List ℚ :=
  succ.filterMap (fun r => r.timestamp)

/-- `calculate_detailed_metrics(df, language)` from
`src/analysis/dashboard_generator.py` (lines 107–172), with the
config-supplied nominal duration threaded in as the explicit parameter
`test_duration_s` (the code reads `config['test']['duration_ms'] / 1000.0`,
defaulting to 30.0). -/
def calculate_detailed_metrics (df : List Record) (test_duration_s : ℚ)
    (language : String) : Option RunMetrics :=
  if df.isEmpty then none
  else
    let total_requests := df.length
    let successful_df := df.filter (fun r => r.success)
    let success_count := successful_df.length
    let success_rate : ℚ :=
      if 0 < total_requests then ((success_count : ℚ) / (total_requests : ℚ)) * 100 else 0
    if successful_df.isEmpty then
      some { total_requests := total_requests, success_rate := 0,
             avg_latency := 0, min_latency := 0, max_latency := 0,
             std_latency := some 0, p95_latency := 0, p99_latency := 0,
             throughput := some 0, test_duration_s := some test_duration_s,
             language := language }
    else
      let final_test_duration_s : Option ℚ :=
        if hasTimestampColumn df = true ∧ 1 < success_count then
          pyMaxOne (msToS (optSub (listMax (successfulTimestamps successful_df))
                                  (listMin (successfulTimestamps successful_df))))
        else some test_duration_s
      let throughput : Option ℚ := optDivBy (success_count : ℚ) final_test_duration_s
      let latencies := successful_df.map (fun r => r.duration_ms)
      some { total_requests := total_requests, success_rate := success_rate,
             avg_latency := seriesMean latencies,
             min_latency := listMinD latencies, max_latency := listMaxD latencies,
             std_latency := seriesVar latencies,
             p95_latency := quantile latencies (95 / 100),
             p99_latency := quantile latencies (99 / 100),
             throughput := throughput, test_duration_s := final_test_duration_s,
             language := language }

end Analytics

namespace Analytics

/-- C2: a non-empty store with zero successful records yields the
well-formed all-zero RunMetrics, with `total_requests` the store size and
`test_duration_s` the nominal duration. -/
theorem C2_zero_success_metrics (df : List Record) (dur : ℚ) (lang : String)
    (hne : df ≠ []) (hfail : ∀ r ∈ df, r.success = false) :
    calculate_detailed_metrics df dur lang =
      some { total_requests := df.length, success_rate := 0,
             avg_latency := 0, min_latency := 0, max_latency := 0,
             std_latency := some 0, p95_latency := 0, p99_latency := 0,
             throughput := some 0, test_duration_s := some dur,
             language := lang } := by
  have hfilter : df.filter (fun r => r.success) = [] := by
    simp only [List.filter_eq_nil_iff]
    intro a ha
    simp [hfail a ha]
  simp [calculate_detailed_metrics, hne, hfilter]

/-- Witness for C2 at Scenario D: a 5-record store with no successes. -/
theorem C2_zero_success_metrics_witness :
    calculate_detailed_metrics
      (List.replicate 5 { success := false, duration_ms := 7,
                          timestamp := none, start_time := none }) 30 "go" =
      some { total_requests := 5, success_rate := 0,
             avg_latency := 0, min_latency := 0, max_latency := 0,
             std_latency := some 0, p95_latency := 0, p99_latency := 0,
             throughput := some 0, test_duration_s := some 30,
             language := "go" } := by
  have h := C2_zero_success_metrics
    (List.replicate 5 { success := false, duration_ms := 7,
                        timestamp := none, start_time := none }) 30 "go"
    (by decide) (by decide)
  simpa using h

/-- C3: the calculator is total (the model is a total Lean function) and
returns `none` exactly on the empty store; every non-empty store gets a
RunMetrics. -/
theorem C3_absent_iff_empty (df : List Record) (dur : ℚ) (lang : String) :
    (calculate_detailed_metrics df dur lang = none ↔ df = []) ∧
    (df ≠ [] → ∃ m, calculate_detailed_metrics df dur lang = some m) := by
  constructor
  · constructor
    · intro h
      by_contra hne
      revert h
      simp only [calculate_detailed_metrics, List.isEmpty_iff, hne, if_false]
      split <;> simp
    · intro h
      subst h
      simp [calculate_detailed_metrics]
  · intro hne
    rcases hcalc : calculate_detailed_metrics df dur lang with _ | m
    · exfalso
      revert hcalc
      simp only [calculate_detailed_metrics, List.isEmpty_iff, hne, if_false]
      split <;> simp
    · exact ⟨m, rfl⟩

/-- On a non-empty column, `listMin` returns its default-stripped value. -/
theorem listMin_eq_some {l : List ℚ} (h : l ≠ []) : listMin l = some (listMinD l) := by
  cases l with
  | nil => exact absurd rfl h
  | cons x xs => simp [listMin, listMinD]

/-- On a non-empty column, `listMax` returns its default-stripped value. -/
theorem listMax_eq_some {l : List ℚ} (h : l ≠ []) : listMax l = some (listMaxD l) := by
  cases l with
  | nil => exact absurd rfl h
  | cons x xs => simp [listMax, listMaxD]


/-- Unfolding of the calculator on a store with at least one success: every
field is exposed, with the inferred duration left as its branch `if`. -/
theorem calc_eq_of_success (df : List Record) (dur : ℚ) (lang : String)
    (hdfne : df ≠ []) (hsucc : df.filter (fun r => r.success) ≠ []) :
    calculate_detailed_metrics df dur lang = some
      { total_requests := df.length,
        success_rate :=
          (((df.filter (fun r => r.success)).length : ℚ) / (df.length : ℚ)) * 100,
        avg_latency := seriesMean ((df.filter (fun r => r.success)).map (fun r => r.duration_ms)),
        min_latency := listMinD ((df.filter (fun r => r.success)).map (fun r => r.duration_ms)),
        max_latency := listMaxD ((df.filter (fun r => r.success)).map (fun r => r.duration_ms)),
        std_latency := seriesVar ((df.filter (fun r => r.success)).map (fun r => r.duration_ms)),
        p95_latency :=
          quantile ((df.filter (fun r => r.success)).map (fun r => r.duration_ms)) (95 / 100),
        p99_latency :=
          quantile ((df.filter (fun r => r.success)).map (fun r => r.duration_ms)) (99 / 100),
        throughput := optDivBy ((df.filter (fun r => r.success)).length : ℚ)
          (if hasTimestampColumn df = true ∧ 1 < (df.filter (fun r => r.success)).length then
            pyMaxOne (msToS (optSub
              (listMax (successfulTimestamps (df.filter (fun r => r.success))))
              (listMin (successfulTimestamps (df.filter (fun r => r.success))))))
          else some dur),
        test_duration_s :=
          (if hasTimestampColumn df = true ∧ 1 < (df.filter (fun r => r.success)).length then
            pyMaxOne (msToS (optSub
              (listMax (successfulTimestamps (df.filter (fun r => r.success))))
              (listMin (successfulTimestamps (df.filter (fun r => r.success))))))
          else some dur),
        language := lang } := by
  have hpos : 0 < df.length := List.length_pos.mpr hdfne
  simp only [calculate_detailed_metrics, List.isEmpty_iff, hdfne, if_false,
    List.isEmpty_eq_false.mpr hsucc, Bool.false_eq_true, hpos, if_true]

/-- C1 as amended.  First arm: when the successful subset has at least two
records and at least one of them carries a `timestamp`, the elapsed time is
`max - min` of the successful subset's timestamps converted to seconds and
clamped to a floor of 1.0, the throughput is `successful_count / elapsed`,
and `test_duration_s = elapsed ≥ 1`.  Second arm: when the store carries no
`timestamp` column at all, or the successful subset has at most one record,
the code falls back to the nominal duration (`start_time` is never
consulted by the calculator). -/
theorem C1_amended (df : List Record) (dur : ℚ) (lang : String) :
    (2 ≤ (df.filter (fun r => r.success)).length →
     successfulTimestamps (df.filter (fun r => r.success)) ≠ [] →
     ∃ m, calculate_detailed_metrics df dur lang = some m ∧
       m.test_duration_s = some (max
         ((listMaxD (successfulTimestamps (df.filter (fun r => r.success)))
           - listMinD (successfulTimestamps (df.filter (fun r => r.success)))) / 1000) 1) ∧
       m.throughput = some (((df.filter (fun r => r.success)).length : ℚ) / max
         ((listMaxD (successfulTimestamps (df.filter (fun r => r.success)))
           - listMinD (successfulTimestamps (df.filter (fun r => r.success)))) / 1000) 1) ∧
       (∀ e, m.test_duration_s = some e → 1 ≤ e))
    ∧ (df ≠ [] →
       (hasTimestampColumn df = false ∨ (df.filter (fun r => r.success)).length ≤ 1) →
       ∃ m, calculate_detailed_metrics df dur lang = some m ∧
         m.throughput = some (((df.filter (fun r => r.success)).length : ℚ) / dur) ∧
         m.test_duration_s = some dur) := by
  constructor
  · intro hlen hts
    have hdfne : df ≠ [] := by
      intro h
      subst h
      simp at hlen
    have hsuccne : df.filter (fun r => r.success) ≠ [] := by
      intro h
      rw [h] at hlen
      simp at hlen
    have hcol : hasTimestampColumn df = true := by
      rcases List.exists_mem_of_ne_nil _ hts with ⟨t, ht⟩
      rcases List.mem_filterMap.mp ht with ⟨r, hr, hrt⟩
      have hrdf : r ∈ df := (List.mem_filter.mp hr).1
      simp only [hasTimestampColumn, List.any_eq_true]
      exact ⟨r, hrdf, by simp [hrt]⟩
    have hone : 1 < (df.filter (fun r => r.success)).length := hlen
    have hbranch : (if hasTimestampColumn df = true ∧
          1 < (df.filter (fun r => r.success)).length then
        pyMaxOne (msToS (optSub
          (listMax (successfulTimestamps (df.filter (fun r => r.success))))
          (listMin (successfulTimestamps (df.filter (fun r => r.success))))))
        else some dur) = some (max
          ((listMaxD (successfulTimestamps (df.filter (fun r => r.success)))
            - listMinD (successfulTimestamps (df.filter (fun r => r.success)))) / 1000) 1) := by
      rw [if_pos ⟨hcol, hone⟩, listMax_eq_some hts, listMin_eq_some hts]
      simp [optSub, msToS, pyMaxOne]
    refine ⟨_, calc_eq_of_success df dur lang hdfne hsuccne, ?_, ?_, ?_⟩
    · simpa using hbranch
    · simp only [optDivBy, hbranch, Option.map_some']
    · intro e he
      simp only [hbranch, Option.some_inj] at he
      rw [← he]
      exact le_max_right _ _
  · intro hdfne hcond
    by_cases hsucc : df.filter (fun r => r.success) = []
    · have hcalc : calculate_detailed_metrics df dur lang =
          some { total_requests := df.length, success_rate := 0,
                 avg_latency := 0, min_latency := 0, max_latency := 0,
                 std_latency := some 0, p95_latency := 0, p99_latency := 0,
                 throughput := some 0, test_duration_s := some dur,
                 language := lang } := by
        simp only [calculate_detailed_metrics, List.isEmpty_iff, hdfne, if_false,
          hsucc, List.isEmpty_nil, if_true]
      refine ⟨_, hcalc, ?_, rfl⟩
      simp [hsucc]
    · have hcond' : ¬ (hasTimestampColumn df = true ∧
          1 < (df.filter (fun r => r.success)).length) := by
        rcases hcond with h | h
        · intro hc
          rw [h] at hc
          exact absurd hc.1 (by simp)
        · intro hc
          omega
      refine ⟨_, calc_eq_of_success df dur lang hdfne hsucc, ?_, ?_⟩
      · simp only [hcond', if_false, optDivBy, Option.map_some']
      · simp only [hcond', if_false]

/-- Concrete store refuting C1 as stated: three successful records carrying
`start_time` (all equal, so any unit conversion of `max - min` gives 0,
clamped by the claim to an elapsed of 1.0 s) and no `timestamp`. -/
def c1Store : List Record :=
  [{ success := true, duration_ms := 5, timestamp := none, start_time := some 0 },
   { success := true, duration_ms := 6, timestamp := none, start_time := some 0 },
   { success := true, duration_ms := 7, timestamp := none, start_time := some 0 }]

/-- C1 counterexample: the successful subset of `c1Store` has three records
with a `start_time` field, so the claim demands
`test_duration_s = max ((0 - 0) converted) 1 = 1` and `throughput = 3`; the
code never consults `start_time` and falls back to the nominal duration,
returning `test_duration_s = 30` and `throughput = 3 / 30 = 1 / 10`. -/
theorem C1_counterexample :
    2 ≤ ((c1Store.filter (fun r => r.success)).filter
          (fun r => r.timestamp.isSome || r.start_time.isSome)).length
    ∧ (calculate_detailed_metrics c1Store 30 "go").map (fun m => m.test_duration_s)
        = some (some 30)
    ∧ (calculate_detailed_metrics c1Store 30 "go").map (fun m => m.throughput)
        = some (some (1 / 10))
    ∧ (30 : ℚ) ≠ max ((0 : ℚ) - 0) 1
    ∧ (1 / 10 : ℚ) ≠ 3 := by
  have hcol : hasTimestampColumn c1Store = false := by decide
  have hcalc := calc_eq_of_success c1Store 30 "go" (by decide) (by decide)
  refine ⟨by decide, ?_, ?_, ?_, by norm_num⟩
  · rw [hcalc]
    simp [hcol]
  · rw [hcalc]
    simp only [hcol, Bool.false_eq_true, false_and, if_false, optDivBy,
      Option.map_some']
    norm_num [c1Store]
  · rw [sub_zero, max_eq_right zero_le_one]
    norm_num

/-- Store exercising the timestamp branch for the C1 witness: two
successful records with timestamps 0 ms and 5000 ms. -/
def c1wStore : List Record :=
  [{ success := true, duration_ms := 5, timestamp := some 0, start_time := none },
   { success := true, duration_ms := 6, timestamp := some 5000, start_time := none }]

/-- Witness for C1_amended: both arms applied at concrete stores. -/
theorem C1_amended_witness :
    (∃ m, calculate_detailed_metrics c1wStore 30 "go" = some m ∧
       m.test_duration_s = some (max
         ((listMaxD (successfulTimestamps (c1wStore.filter (fun r => r.success)))
           - listMinD (successfulTimestamps (c1wStore.filter (fun r => r.success)))) / 1000) 1) ∧
       m.throughput = some (((c1wStore.filter (fun r => r.success)).length : ℚ) / max
         ((listMaxD (successfulTimestamps (c1wStore.filter (fun r => r.success)))
           - listMinD (successfulTimestamps (c1wStore.filter (fun r => r.success)))) / 1000) 1) ∧
       (∀ e, m.test_duration_s = some e → 1 ≤ e))
    ∧ (∃ m, calculate_detailed_metrics c1Store 30 "go" = some m ∧
       m.throughput = some (((c1Store.filter (fun r => r.success)).length : ℚ) / 30) ∧
       m.test_duration_s = some 30) :=
  ⟨(C1_amended c1wStore 30 "go").1 (by decide) (by decide),
   (C1_amended c1Store 30 "go").2 (by decide) (Or.inl (by decide))⟩

/-- Scenario A of the spec: ten records, eight successful with
`duration_ms` = [10,12,11,13,12,14,11,100], no timestamps. -/
def scenarioA : List Record :=
  [{ success := true, duration_ms := 10, timestamp := none, start_time := none },
   { success := true, duration_ms := 12, timestamp := none, start_time := none },
   { success := true, duration_ms := 11, timestamp := none, start_time := none },
   { success := true, duration_ms := 13, timestamp := none, start_time := none },
   { success := true, duration_ms := 12, timestamp := none, start_time := none },
   { success := true, duration_ms := 14, timestamp := none, start_time := none },
   { success := true, duration_ms := 11, timestamp := none, start_time := none },
   { success := true, duration_ms := 100, timestamp := none, start_time := none },
   { success := false, duration_ms := 0, timestamp := none, start_time := none },
   { success := false, duration_ms := 0, timestamp := none, start_time := none }]

/-- C4: on any store with a successful record, the latency statistics are
computed over the successful subset's `duration_ms` values only — mean as
sum over count, standard deviation by the N−1 sample-variance convention
(stated on its square), p95/p99 by linear interpolation between order
statistics of the sorted values at rank `q * (n - 1)` — and Scenario A
evaluates as the spec states. -/
theorem C4_latency_stats (df : List Record) (dur : ℚ) (lang : String)
    (hsucc : df.filter (fun r => r.success) ≠ []) :
    (∃ m, calculate_detailed_metrics df dur lang = some m ∧
      m.avg_latency =
        ((df.filter (fun r => r.success)).map (fun r => r.duration_ms)).sum /
          (((df.filter (fun r => r.success)).map (fun r => r.duration_ms)).length : ℚ) ∧
      m.std_latency =
        (if ((df.filter (fun r => r.success)).map (fun r => r.duration_ms)).length ≤ 1
         then none
         else some ((((df.filter (fun r => r.success)).map (fun r => r.duration_ms)).map
            (fun x => (x - seriesMean
              ((df.filter (fun r => r.success)).map (fun r => r.duration_ms))) ^ 2)).sum /
          ((((df.filter (fun r => r.success)).map (fun r => r.duration_ms)).length : ℚ) - 1))) ∧
      m.p95_latency =
        quantile ((df.filter (fun r => r.success)).map (fun r => r.duration_ms)) (95 / 100) ∧
      m.p99_latency =
        quantile ((df.filter (fun r => r.success)).map (fun r => r.duration_ms)) (99 / 100))
    ∧ (∃ m, calculate_detailed_metrics scenarioA 30 "go" = some m ∧
        m.success_rate = 80 ∧ m.throughput = some (8 / 30) ∧
        m.avg_latency = 183 / 8 ∧ m.max_latency = 100) := by
  constructor
  · have hdfne : df ≠ [] := by
      intro h
      subst h
      simp at hsucc
    exact ⟨_, calc_eq_of_success df dur lang hdfne hsucc, rfl, rfl, rfl, rfl⟩
  · have hcol : hasTimestampColumn scenarioA = false := by decide
    refine ⟨_, calc_eq_of_success scenarioA 30 "go" (by decide) (by decide),
      ?_, ?_, ?_, ?_⟩
    · norm_num [scenarioA]
    · simp only [hcol, Bool.false_eq_true, false_and, if_false, optDivBy,
        Option.map_some']
      norm_num [scenarioA]
    · norm_num [scenarioA, seriesMean]
    · norm_num [scenarioA, listMaxD, listMax, max_def]

/-- Witness for C4: the Scenario A component of the theorem, read off at a
concrete instantiation. -/
theorem C4_latency_stats_witness :
    ∃ m, calculate_detailed_metrics scenarioA 30 "go" = some m ∧
      m.success_rate = 80 ∧ m.throughput = some (8 / 30) ∧
      m.avg_latency = 183 / 8 ∧ m.max_latency = 100 :=
  (C4_latency_stats scenarioA 30 "go" (by decide)).2

/-- `getD` at a valid index is `get`. -/
theorem getD_eq_get (l : List ℚ) (i : ℕ) (h : i < l.length) :
    l.getD i 0 = l.get ⟨i, h⟩ := by
  rw [List.getD_eq_getElem?_getD, List.getElem?_eq_getElem h]
  rfl

/-- Entries of a sorted column are monotone in the index. -/
theorem sorted_getD_mono {s : List ℚ} (hs : s.Sorted (· ≤ ·)) {i j : ℕ}
    (hij : i ≤ j) (hj : j < s.length) : s.getD i 0 ≤ s.getD j 0 := by
  have hi : i < s.length := lt_of_le_of_lt hij hj
  rw [getD_eq_get s i hi, getD_eq_get s j hj]
  exact hs.rel_get_of_le (by exact hij)

/-- `getD` at a valid index is a member. -/
theorem getD_mem (l : List ℚ) (i : ℕ) (h : i < l.length) : l.getD i 0 ∈ l := by
  rw [getD_eq_get l i h]
  exact List.get_mem l _ _

/-- A running `min` fold is at most its seed. -/
theorem foldl_min_le_init (xs : List ℚ) (a : ℚ) : xs.foldl min a ≤ a := by
  induction xs generalizing a with
  | nil => simp
  | cons y ys ih => exact le_trans (ih (min a y)) (min_le_left a y)

/-- A running `min` fold is at most every traversed element. -/
theorem foldl_min_le_mem (xs : List ℚ) (a x : ℚ) (hx : x ∈ xs) :
    xs.foldl min a ≤ x := by
  induction xs generalizing a with
  | nil => cases hx
  | cons y ys ih =>
    rcases List.mem_cons.mp hx with h | h
    · subst h
      exact le_trans (foldl_min_le_init ys (min a x)) (min_le_right a x)
    · exact ih (min a y) h

/-- A running `max` fold is at least its seed. -/
theorem init_le_foldl_max (xs : List ℚ) (a : ℚ) : a ≤ xs.foldl max a := by
  induction xs generalizing a with
  | nil => simp
  | cons y ys ih => exact le_trans (le_max_left a y) (ih (max a y))

/-- A running `max` fold dominates every traversed element. -/
theorem mem_le_foldl_max (xs : List ℚ) (a x : ℚ) (hx : x ∈ xs) :
    x ≤ xs.foldl max a := by
  induction xs generalizing a with
  | nil => cases hx
  | cons y ys ih =>
    rcases List.mem_cons.mp hx with h | h
    · subst h
      exact le_trans (le_max_right a x) (init_le_foldl_max ys (max a x))
    · exact ih (max a y) h

/-- The column minimum is a lower bound of the column. -/
theorem listMinD_le_mem (l : List ℚ) (x : ℚ) (hx : x ∈ l) : listMinD l ≤ x := by
  cases l with
  | nil => cases hx
  | cons y ys =>
    simp only [listMinD, listMin, Option.getD_some]
    rcases List.mem_cons.mp hx with h | h
    · subst h
      exact foldl_min_le_init ys x
    · exact foldl_min_le_mem ys y x h

/-- The column maximum is an upper bound of the column. -/
theorem mem_le_listMaxD (l : List ℚ) (x : ℚ) (hx : x ∈ l) : x ≤ listMaxD l := by
  cases l with
  | nil => cases hx
  | cons y ys =>
    simp only [listMaxD, listMax, Option.getD_some]
    rcases List.mem_cons.mp hx with h | h
    · subst h
      exact init_le_foldl_max ys x
    · exact mem_le_foldl_max ys y x h

/-- The mean of a non-empty column sits between any lower bound and any
upper bound of the column (applied below with the column min and max). -/
theorem seriesMean_bounds (l : List ℚ) (hl : l ≠ []) :
    listMinD l ≤ seriesMean l ∧ seriesMean l ≤ listMaxD l := by
  have hpos : 0 < (l.length : ℚ) := by
    have := List.length_pos.mpr hl
    exact_mod_cast this
  constructor
  · rw [seriesMean, le_div_iff₀ hpos]
    have h1 : l.length • listMinD l ≤ l.sum :=
      List.card_nsmul_le_sum l (listMinD l) (fun x hx => listMinD_le_mem l x hx)
    calc listMinD l * (l.length : ℚ) = l.length • listMinD l := by
          rw [nsmul_eq_mul, mul_comm]
      _ ≤ l.sum := h1
  · rw [seriesMean, div_le_iff₀ hpos]
    have h1 : l.sum ≤ l.length • listMaxD l :=
      List.sum_le_card_nsmul l (listMaxD l) (fun x hx => mem_le_listMaxD l x hx)
    calc l.sum ≤ l.length • listMaxD l := h1
      _ = listMaxD l * (l.length : ℚ) := by rw [nsmul_eq_mul, mul_comm]

/-- The linear interpolant at rank `h` of a sorted column lies between the
two order statistics it interpolates, hence within the column's range. -/
theorem quantile_bounds (l : List ℚ) (hl : l ≠ []) (q : ℚ)
    (hq0 : 0 ≤ q) (hq1 : q ≤ 1) :
    listMinD l ≤ quantile l q ∧ quantile l q ≤ listMaxD l := by
  have hperm : List.Perm (List.insertionSort (· ≤ ·) l) l := List.perm_insertionSort _ l
  have hlen : (List.insertionSort (· ≤ ·) l).length = l.length := hperm.length_eq
  have hsort : (List.insertionSort (· ≤ ·) l).Sorted (· ≤ ·) :=
    List.sorted_insertionSort _ l
  have hn : 1 ≤ l.length := List.length_pos.mpr hl
  have hn1 : (0 : ℚ) ≤ (l.length : ℚ) - 1 := by
    have h1 : (1 : ℚ) ≤ (l.length : ℚ) := by exact_mod_cast hn
    linarith
  have h0 : 0 ≤ q * ((l.length : ℚ) - 1) := mul_nonneg hq0 hn1
  have hle : q * ((l.length : ℚ) - 1) ≤ (l.length : ℚ) - 1 := by
    calc q * ((l.length : ℚ) - 1) ≤ 1 * ((l.length : ℚ) - 1) :=
          mul_le_mul_of_nonneg_right hq1 hn1
      _ = (l.length : ℚ) - 1 := one_mul _
  have hfl0 : 0 ≤ ⌊q * ((l.length : ℚ) - 1)⌋ := Int.floor_nonneg.mpr h0
  have hlocast : ((⌊q * ((l.length : ℚ) - 1)⌋.toNat : ℕ) : ℚ)
      = ((⌊q * ((l.length : ℚ) - 1)⌋ : ℤ) : ℚ) := by
    have h2 : (((⌊q * ((l.length : ℚ) - 1)⌋.toNat : ℕ) : ℤ) : ℚ)
        = ((⌊q * ((l.length : ℚ) - 1)⌋ : ℤ) : ℚ) :=
      congrArg (fun z : ℤ => (z : ℚ)) (Int.toNat_of_nonneg hfl0)
    rwa [Int.cast_natCast] at h2
  have hlole : ((⌊q * ((l.length : ℚ) - 1)⌋.toNat : ℕ) : ℚ) ≤ q * ((l.length : ℚ) - 1) := by
    rw [hlocast]
    exact Int.floor_le _
  have hcl : ⌈q * ((l.length : ℚ) - 1)⌉ ≤ (l.length : ℤ) - 1 := by
    apply Int.ceil_le.mpr
    push_cast
    exact hle
  have hhi_lt : ⌈q * ((l.length : ℚ) - 1)⌉.toNat < (List.insertionSort (· ≤ ·) l).length := by
    rw [hlen]
    omega
  have hlo_le_hi : ⌊q * ((l.length : ℚ) - 1)⌋.toNat ≤ ⌈q * ((l.length : ℚ) - 1)⌉.toNat := by
    have := Int.floor_le_ceil (q * ((l.length : ℚ) - 1))
    omega
  have hlo_lt : ⌊q * ((l.length : ℚ) - 1)⌋.toNat < (List.insertionSort (· ≤ ·) l).length :=
    lt_of_le_of_lt hlo_le_hi hhi_lt
  have hab : (List.insertionSort (· ≤ ·) l).getD (⌊q * ((l.length : ℚ) - 1)⌋.toNat) 0
      ≤ (List.insertionSort (· ≤ ·) l).getD (⌈q * ((l.length : ℚ) - 1)⌉.toNat) 0 :=
    sorted_getD_mono hsort hlo_le_hi hhi_lt
  have ht0 : 0 ≤ q * ((l.length : ℚ) - 1) - ((⌊q * ((l.length : ℚ) - 1)⌋.toNat : ℕ) : ℚ) := by
    linarith
  have ht1 : q * ((l.length : ℚ) - 1) - ((⌊q * ((l.length : ℚ) - 1)⌋.toNat : ℕ) : ℚ) ≤ 1 := by
    rw [hlocast]
    have := Int.lt_floor_add_one (q * ((l.length : ℚ) - 1))
    push_cast at this ⊢
    linarith
  have hamem : (List.insertionSort (· ≤ ·) l).getD (⌊q * ((l.length : ℚ) - 1)⌋.toNat) 0 ∈ l :=
    hperm.subset (getD_mem _ _ hlo_lt)
  have hbmem : (List.insertionSort (· ≤ ·) l).getD (⌈q * ((l.length : ℚ) - 1)⌉.toNat) 0 ∈ l :=
    hperm.subset (getD_mem _ _ hhi_lt)
  constructor
  · have hmin := listMinD_le_mem l _ hamem
    have hprod : 0 ≤ (q * ((l.length : ℚ) - 1) - ((⌊q * ((l.length : ℚ) - 1)⌋.toNat : ℕ) : ℚ))
        * ((List.insertionSort (· ≤ ·) l).getD (⌈q * ((l.length : ℚ) - 1)⌉.toNat) 0
           - (List.insertionSort (· ≤ ·) l).getD (⌊q * ((l.length : ℚ) - 1)⌋.toNat) 0) :=
      mul_nonneg ht0 (by linarith)
    simp only [quantile]
    linarith
  · have hmax := mem_le_listMaxD l _ hbmem
    have hprod : (q * ((l.length : ℚ) - 1) - ((⌊q * ((l.length : ℚ) - 1)⌋.toNat : ℕ) : ℚ))
        * ((List.insertionSort (· ≤ ·) l).getD (⌈q * ((l.length : ℚ) - 1)⌉.toNat) 0
           - (List.insertionSort (· ≤ ·) l).getD (⌊q * ((l.length : ℚ) - 1)⌋.toNat) 0)
        ≤ 1 * ((List.insertionSort (· ≤ ·) l).getD (⌈q * ((l.length : ℚ) - 1)⌉.toNat) 0
           - (List.insertionSort (· ≤ ·) l).getD (⌊q * ((l.length : ℚ) - 1)⌋.toNat) 0) :=
      mul_le_mul_of_nonneg_right ht1 (by linarith)
    simp only [quantile]
    linarith

/-- Casting a nonnegative integer to `ℚ` through `toNat` is the direct
cast. -/
theorem intToNat_castQ {z : ℤ} (h : 0 ≤ z) : ((z.toNat : ℕ) : ℚ) = (z : ℚ) := by
  have h2 : (((z.toNat : ℕ) : ℤ) : ℚ) = (z : ℚ) :=
    congrArg (fun w : ℤ => (w : ℚ)) (Int.toNat_of_nonneg h)
  rwa [Int.cast_natCast] at h2

/-- The linear interpolant between order statistics of a sorted column is
monotone in the rank. -/
theorem interp_mono (s : List ℚ) (hsort : s.Sorted (· ≤ ·)) (h₁ h₂ : ℚ)
    (h10 : 0 ≤ h₁) (h12 : h₁ ≤ h₂) (h2n : h₂ ≤ (s.length : ℚ) - 1) :
    s.getD (⌊h₁⌋.toNat) 0 + (h₁ - ((⌊h₁⌋.toNat : ℕ) : ℚ))
        * (s.getD (⌈h₁⌉.toNat) 0 - s.getD (⌊h₁⌋.toNat) 0)
    ≤ s.getD (⌊h₂⌋.toNat) 0 + (h₂ - ((⌊h₂⌋.toNat : ℕ) : ℚ))
        * (s.getD (⌈h₂⌉.toNat) 0 - s.getD (⌊h₂⌋.toNat) 0) := by
  have h20 : 0 ≤ h₂ := le_trans h10 h12
  have hf10 : 0 ≤ ⌊h₁⌋ := Int.floor_nonneg.mpr h10
  have hf20 : 0 ≤ ⌊h₂⌋ := Int.floor_nonneg.mpr h20
  have hc10 : 0 ≤ ⌈h₁⌉ := Int.ceil_nonneg h10
  have hc20 : 0 ≤ ⌈h₂⌉ := Int.ceil_nonneg h20
  have hcast1 : ((⌊h₁⌋.toNat : ℕ) : ℚ) = ((⌊h₁⌋ : ℤ) : ℚ) := intToNat_castQ hf10
  have hcast2 : ((⌊h₂⌋.toNat : ℕ) : ℚ) = ((⌊h₂⌋ : ℤ) : ℚ) := intToNat_castQ hf20
  have hc2 : ⌈h₂⌉ ≤ (s.length : ℤ) - 1 := by
    apply Int.ceil_le.mpr
    push_cast
    exact h2n
  have hc1 : ⌈h₁⌉ ≤ (s.length : ℤ) - 1 := le_trans (Int.ceil_le_ceil h12) hc2
  have hf2c : ⌊h₂⌋ ≤ ⌈h₂⌉ := Int.floor_le_ceil h₂
  have hf1c : ⌊h₁⌋ ≤ ⌈h₁⌉ := Int.floor_le_ceil h₁
  have hhi1_lt : ⌈h₁⌉.toNat < s.length := by omega
  have hhi2_lt : ⌈h₂⌉.toNat < s.length := by omega
  have hlo2_lt : ⌊h₂⌋.toNat < s.length := by omega
  have hab1 : s.getD (⌊h₁⌋.toNat) 0 ≤ s.getD (⌈h₁⌉.toNat) 0 :=
    sorted_getD_mono hsort (by omega) hhi1_lt
  have hab2 : s.getD (⌊h₂⌋.toNat) 0 ≤ s.getD (⌈h₂⌉.toNat) 0 :=
    sorted_getD_mono hsort (by omega) hhi2_lt
  have ht10 : 0 ≤ h₁ - ((⌊h₁⌋.toNat : ℕ) : ℚ) := by
    rw [hcast1]
    linarith [Int.floor_le h₁]
  have ht11 : h₁ - ((⌊h₁⌋.toNat : ℕ) : ℚ) ≤ 1 := by
    rw [hcast1]
    have := Int.lt_floor_add_one h₁
    push_cast at this
    linarith
  have ht20 : 0 ≤ h₂ - ((⌊h₂⌋.toNat : ℕ) : ℚ) := by
    rw [hcast2]
    linarith [Int.floor_le h₂]
  by_cases hfl : ⌊h₁⌋ = ⌊h₂⌋
  · by_cases hcl : ⌈h₁⌉ = ⌈h₂⌉
    · rw [hfl, hcl]
      have hdiff : h₁ - ((⌊h₂⌋.toNat : ℕ) : ℚ) ≤ h₂ - ((⌊h₂⌋.toNat : ℕ) : ℚ) := by linarith
      have hmul := mul_le_mul_of_nonneg_right hdiff
        (by linarith : (0 : ℚ) ≤ s.getD (⌈h₂⌉.toNat) 0 - s.getD (⌊h₂⌋.toNat) 0)
      linarith
    · have hceq : ⌈h₁⌉ = ⌊h₁⌋ := by
        have c1 : ⌈h₁⌉ ≤ ⌈h₂⌉ := Int.ceil_le_ceil h12
        have c2 : ⌈h₂⌉ ≤ ⌊h₂⌋ + 1 := Int.ceil_le_floor_add_one h₂
        have c3 : ⌈h₁⌉ ≤ ⌊h₁⌋ + 1 := Int.ceil_le_floor_add_one h₁
        omega
      have hup : h₁ ≤ ((⌊h₁⌋ : ℤ) : ℚ) := by
        have hle := Int.le_ceil h₁
        rw [hceq] at hle
        exact hle
      have hint : h₁ = ((⌊h₁⌋ : ℤ) : ℚ) := le_antisymm hup (Int.floor_le h₁)
      have ht1z : h₁ - ((⌊h₁⌋.toNat : ℕ) : ℚ) = 0 := by
        rw [hcast1, ← hint]
        ring
      have hgoal₁ : s.getD (⌊h₁⌋.toNat) 0 = s.getD (⌊h₂⌋.toNat) 0 := by rw [hfl]
      have hprod2 : 0 ≤ (h₂ - ((⌊h₂⌋.toNat : ℕ) : ℚ))
          * (s.getD (⌈h₂⌉.toNat) 0 - s.getD (⌊h₂⌋.toNat) 0) :=
        mul_nonneg ht20 (by linarith)
      rw [ht1z]
      simp only [zero_mul, add_zero]
      linarith
  · have hlt : ⌊h₁⌋ < ⌊h₂⌋ := lt_of_le_of_ne (Int.floor_le_floor h12) hfl
    have hub : s.getD (⌊h₁⌋.toNat) 0 + (h₁ - ((⌊h₁⌋.toNat : ℕ) : ℚ))
        * (s.getD (⌈h₁⌉.toNat) 0 - s.getD (⌊h₁⌋.toNat) 0) ≤ s.getD (⌈h₁⌉.toNat) 0 := by
      have hm := mul_le_mul_of_nonneg_right ht11
        (by linarith : (0 : ℚ) ≤ s.getD (⌈h₁⌉.toNat) 0 - s.getD (⌊h₁⌋.toNat) 0)
      linarith
    have hmid : s.getD (⌈h₁⌉.toNat) 0 ≤ s.getD (⌊h₂⌋.toNat) 0 := by
      apply sorted_getD_mono hsort _ hlo2_lt
      have hio : ⌈h₁⌉ ≤ ⌊h₂⌋ := le_trans (Int.ceil_le_floor_add_one h₁) (by omega)
      omega
    have hlb : s.getD (⌊h₂⌋.toNat) 0 ≤ s.getD (⌊h₂⌋.toNat) 0
        + (h₂ - ((⌊h₂⌋.toNat : ℕ) : ℚ))
          * (s.getD (⌈h₂⌉.toNat) 0 - s.getD (⌊h₂⌋.toNat) 0) := by
      have hp := mul_nonneg ht20
        (by linarith : (0 : ℚ) ≤ s.getD (⌈h₂⌉.toNat) 0 - s.getD (⌊h₂⌋.toNat) 0)
      linarith
    linarith

/-- The interpolated quantile is monotone in `q` on `[0, 1]`. -/
theorem quantile_mono (l : List ℚ) (hl : l ≠ []) (q₁ q₂ : ℚ)
    (hq0 : 0 ≤ q₁) (h12 : q₁ ≤ q₂) (hq1 : q₂ ≤ 1) :
    quantile l q₁ ≤ quantile l q₂ := by
  have hlen : (List.insertionSort (· ≤ ·) l).length = l.length :=
    (List.perm_insertionSort _ l).length_eq
  have hsort : (List.insertionSort (· ≤ ·) l).Sorted (· ≤ ·) :=
    List.sorted_insertionSort _ l
  have hn : 1 ≤ l.length := List.length_pos.mpr hl
  have hn1 : (0 : ℚ) ≤ (l.length : ℚ) - 1 := by
    have h1 : (1 : ℚ) ≤ (l.length : ℚ) := by exact_mod_cast hn
    linarith
  have h10 : 0 ≤ q₁ * ((l.length : ℚ) - 1) := mul_nonneg hq0 hn1
  have h12' : q₁ * ((l.length : ℚ) - 1) ≤ q₂ * ((l.length : ℚ) - 1) :=
    mul_le_mul_of_nonneg_right h12 hn1
  have h2n : q₂ * ((l.length : ℚ) - 1)
      ≤ ((List.insertionSort (· ≤ ·) l).length : ℚ) - 1 := by
    rw [hlen]
    calc q₂ * ((l.length : ℚ) - 1) ≤ 1 * ((l.length : ℚ) - 1) :=
          mul_le_mul_of_nonneg_right hq1 hn1
      _ = (l.length : ℚ) - 1 := one_mul _
  simpa only [quantile] using
    interp_mono (List.insertionSort (· ≤ ·) l) hsort _ _ h10 h12' h2n

/-- Unfolding of the calculator on a non-empty store with no success. -/
theorem calc_eq_of_no_success (df : List Record) (dur : ℚ) (lang : String)
    (hdfne : df ≠ []) (hsucc : df.filter (fun r => r.success) = []) :
    calculate_detailed_metrics df dur lang =
      some { total_requests := df.length, success_rate := 0,
             avg_latency := 0, min_latency := 0, max_latency := 0,
             std_latency := some 0, p95_latency := 0, p99_latency := 0,
             throughput := some 0, test_duration_s := some dur,
             language := lang } := by
  simp only [calculate_detailed_metrics, List.isEmpty_iff, hdfne, if_false,
    hsucc, List.isEmpty_nil, if_true]

/-- C5: whenever the successful subset is non-empty, the computed latency
summary is internally consistent — `min ≤ avg ≤ max`, `p95 ≤ p99`, and both
percentiles lie in `[min, max]` — and the success rate of any computed
RunMetrics lies in `[0, 100]`. -/
theorem C5_ordering (df : List Record) (dur : ℚ) (lang : String) :
    ((df.filter (fun r => r.success)) ≠ [] →
      ∃ m, calculate_detailed_metrics df dur lang = some m ∧
        m.min_latency ≤ m.avg_latency ∧ m.avg_latency ≤ m.max_latency ∧
        m.p95_latency ≤ m.p99_latency ∧
        m.min_latency ≤ m.p95_latency ∧ m.p95_latency ≤ m.max_latency ∧
        m.min_latency ≤ m.p99_latency ∧ m.p99_latency ≤ m.max_latency)
    ∧ (∀ m, calculate_detailed_metrics df dur lang = some m →
        0 ≤ m.success_rate ∧ m.success_rate ≤ 100) := by
  constructor
  · intro hsucc
    have hdfne : df ≠ [] := by
      intro h
      rw [h] at hsucc
      simp at hsucc
    have hlats : (df.filter (fun r => r.success)).map (fun r => r.duration_ms) ≠ [] := by
      simp only [ne_eq, List.map_eq_nil_iff]
      exact hsucc
    have hmean := seriesMean_bounds _ hlats
    have hq95 := quantile_bounds _ hlats (95 / 100) (by norm_num) (by norm_num)
    have hq99 := quantile_bounds _ hlats (99 / 100) (by norm_num) (by norm_num)
    have hmono := quantile_mono _ hlats (95 / 100) (99 / 100)
      (by norm_num) (by norm_num) (by norm_num)
    exact ⟨_, calc_eq_of_success df dur lang hdfne hsucc,
      hmean.1, hmean.2, hmono, hq95.1, hq95.2, hq99.1, hq99.2⟩
  · intro m hm
    by_cases hdf : df = []
    · subst hdf
      simp [calculate_detailed_metrics] at hm
    · by_cases hsucc : df.filter (fun r => r.success) = []
      · rw [calc_eq_of_no_success df dur lang hdf hsucc] at hm
        obtain rfl : _ = m := Option.some_inj.mp hm
        norm_num
      · rw [calc_eq_of_success df dur lang hdf hsucc] at hm
        obtain rfl : _ = m := Option.some_inj.mp hm
        have hle : (df.filter (fun r => r.success)).length ≤ df.length :=
          List.length_filter_le _ _
        have hposn : 0 < (df.length : ℚ) := by
          exact_mod_cast List.length_pos.mpr hdf
        have hnum0 : (0 : ℚ) ≤ ((df.filter (fun r => r.success)).length : ℚ) := by
          positivity
        have hlecast : ((df.filter (fun r => r.success)).length : ℚ) ≤ (df.length : ℚ) := by
          exact_mod_cast hle
        constructor
        · simp only
          positivity
        · simp only
          have hdiv : ((df.filter (fun r => r.success)).length : ℚ) / (df.length : ℚ) ≤ 1 :=
            (div_le_one hposn).mpr hlecast
          linarith

/-- Witness for C5: both components applied at the concrete store
`c1Store`. -/
theorem C5_ordering_witness :
    (∃ m, calculate_detailed_metrics c1Store 30 "go" = some m ∧
       m.min_latency ≤ m.avg_latency ∧ m.avg_latency ≤ m.max_latency ∧
       m.p95_latency ≤ m.p99_latency ∧
       m.min_latency ≤ m.p95_latency ∧ m.p95_latency ≤ m.max_latency ∧
       m.min_latency ≤ m.p99_latency ∧ m.p99_latency ≤ m.max_latency)
    ∧ (∃ m, calculate_detailed_metrics c1Store 30 "go" = some m ∧
       0 ≤ m.success_rate ∧ m.success_rate ≤ 100) := by
  constructor
  · exact (C5_ordering c1Store 30 "go").1 (by decide)
  · obtain ⟨m, hm, -⟩ := (C5_ordering c1Store 30 "go").1 (by decide)
    exact ⟨m, hm, (C5_ordering c1Store 30 "go").2 m hm⟩

/-- pandas `Series.mean` over a metrics column that may contain NaN
values: NaN entries are skipped (default `skipna`), and the mean of no
valid entries is NaN. -/
def aggMean (l : List (Option ℚ)) : Option ℚ :=
  if (l.filterMap id).length = 0 then none else some (seriesMean (l.filterMap id))

/-- The square of pandas `Series.std` (ddof = 1) over a metrics column
that may contain NaN values: NaN entries are skipped, and fewer than two
valid entries give NaN. -/
def aggVar (l : List (Option ℚ)) : Option ℚ := seriesVar (l.filterMap id)

/-- The metric columns reported by `print_summary` in
`analyze_multi_run_results.py` (`metrics_to_report`), with the column
reader for each key.  Plain-`ℚ` fields are injected into `Option` because
the pandas column holds floats that are never NaN for them. -/
def metricColumns : List (String × (RunMetrics → Option ℚ)) :=
  [("throughput", fun m => m.throughput),
   ("avg_latency", fun m => some m.avg_latency),
   ("p95_latency", fun m => some m.p95_latency),
   ("p99_latency", fun m => some m.p99_latency),
   ("std_latency", fun m => m.std_latency)]

/-- The per-variant aggregation loop of `print_summary` (lines 86–95 of
`analyze_multi_run_results.py`): for each reported metric, the pair
`(df[key].mean(), df[key].std())` — the latter squared, see the file
header. -/
def aggregateRuns (runs : List RunMetrics) : List (String × Option ℚ × Option ℚ) :=
  metricColumns.map (fun p => (p.1, aggMean (runs.map p.2), aggVar (runs.map p.2)))

/-- The per-run collection loop of `analyze_multi_run` (lines 55–60):
for each run's store, skip it when empty, otherwise append the computed
metrics to the variant's list. -/
def collectMetrics (dfs : List (List Record)) (dur : ℚ) (lang : String) :
    List RunMetrics :=
  dfs.filterMap (fun df =>
    if df.isEmpty then none else calculate_detailed_metrics df dur lang)

/-- A one-entry column aggregates to its own value as the mean. -/
theorem aggMean_single (x : Option ℚ) : aggMean [x] = x := by
  cases x with
  | none => simp [aggMean]
  | some v => simp [aggMean, seriesMean]

/-- A one-entry column has NaN standard deviation. -/
theorem aggVar_single (x : Option ℚ) : aggVar [x] = none := by
  cases x with
  | none => simp [aggVar, seriesVar]
  | some v => simp [aggVar, seriesVar]

/-- Stripping the `some` injection recovers the raw column. -/
theorem filterMap_id_map_some (l : List ℚ) : (l.map some).filterMap id = l := by
  induction l with
  | nil => rfl
  | cons x xs ih => simp [ih]

/-- C6: the aggregator computes, per reported metric, the arithmetic mean
and the N−1 sample standard deviation (stated on its square) of the
per-run values, and on a single run every mean equals that run's value
while every standard deviation is NaN, not 0. -/
theorem C6_mean_and_sample_std :
    (∀ m : RunMetrics, aggregateRuns [m] =
        metricColumns.map (fun p => (p.1, p.2 m, none)))
    ∧ (∀ l : List ℚ, l ≠ [] →
        aggMean (l.map some) = some (l.sum / (l.length : ℚ)))
    ∧ (∀ l : List ℚ, 2 ≤ l.length →
        aggVar (l.map some) =
          some ((l.map (fun x => (x - l.sum / (l.length : ℚ)) ^ 2)).sum
            / ((l.length : ℚ) - 1))) := by
  refine ⟨?_, ?_, ?_⟩
  · intro m
    simp only [aggregateRuns, List.map_cons, List.map_nil]
    exact List.map_congr_left (fun p _ => by
      rw [aggMean_single, aggVar_single])
  · intro l hl
    rw [aggMean, filterMap_id_map_some]
    simp only [List.length_eq_zero, hl, if_false]
    rfl
  · intro l hl
    rw [aggVar, filterMap_id_map_some, seriesVar]
    have h2 : ¬ l.length ≤ 1 := by omega
    simp only [h2, if_false]
    rfl

/-- A sample RunMetrics value used by aggregation witnesses. -/
def mE : RunMetrics :=
  { total_requests := 4, success_rate := 100, avg_latency := 10,
    min_latency := 8, max_latency := 12, std_latency := some 2,
    p95_latency := 11, p99_latency := 12, throughput := some 4,
    test_duration_s := some 1, language := "go" }

/-- Witness for C6: the single-run clause at `mE`, and Scenario E
(`avg_latency` values 10 and 20 give mean 15 and squared sample standard
deviation 50, the square of 7.07). -/
theorem C6_mean_and_sample_std_witness :
    aggregateRuns [mE] = metricColumns.map (fun p => (p.1, p.2 mE, none))
    ∧ aggMean (([10, 20] : List ℚ).map some) = some 15
    ∧ aggVar (([10, 20] : List ℚ).map some) = some 50 := by
  refine ⟨C6_mean_and_sample_std.1 mE, ?_, ?_⟩
  · rw [C6_mean_and_sample_std.2.1 [10, 20] (by decide)]
    norm_num
  · rw [C6_mean_and_sample_std.2.2 [10, 20] (by decide)]
    norm_num

/-- Column means are invariant under permutation of the runs. -/
theorem aggMean_perm {l l' : List (Option ℚ)} (hp : List.Perm l l') :
    aggMean l = aggMean l' := by
  have hv : List.Perm (l.filterMap id) (l'.filterMap id) := hp.filterMap id
  rw [aggMean, aggMean, hv.length_eq, seriesMean, seriesMean,
    hv.sum_eq, hv.length_eq]

/-- Column variances are invariant under permutation of the runs. -/
theorem aggVar_perm {l l' : List (Option ℚ)} (hp : List.Perm l l') :
    aggVar l = aggVar l' := by
  have hv : List.Perm (l.filterMap id) (l'.filterMap id) := hp.filterMap id
  have hmean : seriesMean (l.filterMap id) = seriesMean (l'.filterMap id) := by
    rw [seriesMean, seriesMean, hv.sum_eq, hv.length_eq]
  have hsq : List.Perm
      ((l.filterMap id).map (fun x => (x - seriesMean (l.filterMap id)) ^ 2))
      ((l'.filterMap id).map (fun x => (x - seriesMean (l'.filterMap id)) ^ 2)) := by
    rw [hmean]
    exact hv.map _
  rw [aggVar, aggVar, seriesVar, seriesVar, hv.length_eq, hsq.sum_eq]

/-- C7: aggregation is order-independent — any permutation of the same
multiset of RunMetrics yields identical per-metric means and sample
standard deviations (and, since the model is a pure function, it is
deterministic by construction). -/
theorem C7_aggregation_perm_invariant (runs runs' : List RunMetrics)
    (hp : List.Perm runs runs') :
    aggregateRuns runs = aggregateRuns runs' := by
  rw [aggregateRuns, aggregateRuns]
  exact List.map_congr_left (fun p _ => by
    rw [aggMean_perm (hp.map p.2), aggVar_perm (hp.map p.2)])

/-- A second sample RunMetrics value, used to permute against `mE`. -/
def mF : RunMetrics :=
  { total_requests := 6, success_rate := 50, avg_latency := 20,
    min_latency := 15, max_latency := 25, std_latency := some 3,
    p95_latency := 24, p99_latency := 25, throughput := some 3,
    test_duration_s := some 2, language := "go" }

/-- Witness for C7: swapping a two-run sequence leaves the aggregate
unchanged. -/
theorem C7_aggregation_perm_invariant_witness :
    aggregateRuns [mE, mF] = aggregateRuns [mF, mE] :=
  C7_aggregation_perm_invariant [mE, mF] [mF, mE] (List.Perm.swap mF mE [])

/-- C9: a non-empty store with zero successful records still contributes a
(zero-valued) RunMetrics to the variant's collected list, unlike an empty
store; its `throughput = 0` is a valid value, so it enters the cross-run
mean's numerator and denominator (the aggregate throughput mean over the
collected runs is defined, not NaN). -/
theorem C9_zero_success_run_included (dfs : List (List Record)) (dur : ℚ)
    (lang : String) (df : List Record) (hmem : df ∈ dfs) (hne : df ≠ [])
    (hfail : ∀ r ∈ df, r.success = false) :
    ∃ m, calculate_detailed_metrics df dur lang = some m ∧
      m ∈ collectMetrics dfs dur lang ∧
      m.throughput = some 0 ∧ m.avg_latency = 0 ∧
      m.total_requests = df.length ∧
      aggMean ((collectMetrics dfs dur lang).map (fun x => x.throughput)) ≠ none := by
  have hsuccfil : df.filter (fun r => r.success) = [] := by
    simp only [List.filter_eq_nil_iff]
    intro a ha
    simp [hfail a ha]
  have hcalc := calc_eq_of_no_success df dur lang hne hsuccfil
  obtain ⟨m, hm, hthr, havg, htot⟩ :
      ∃ m, calculate_detailed_metrics df dur lang = some m ∧
        m.throughput = some 0 ∧ m.avg_latency = 0 ∧
        m.total_requests = df.length := by
    rw [hcalc]
    exact ⟨_, rfl, rfl, rfl, rfl⟩
  have hmemc : m ∈ collectMetrics dfs dur lang := by
    apply List.mem_filterMap.mpr
    refine ⟨df, hmem, ?_⟩
    rw [if_neg (by simp [hne]), hm]
  have h0 : (0 : ℚ) ∈ (((collectMetrics dfs dur lang).map
      (fun x => x.throughput)).filterMap id) := by
    apply List.mem_filterMap.mpr
    refine ⟨some 0, List.mem_map.mpr ⟨m, hmemc, ?_⟩, rfl⟩
    rw [hthr]
  have hlen : (((collectMetrics dfs dur lang).map
      (fun x => x.throughput)).filterMap id).length ≠ 0 := by
    intro hz
    rw [List.length_eq_zero] at hz
    rw [hz] at h0
    cases h0
  refine ⟨m, hm, hmemc, hthr, havg, htot, ?_⟩
  rw [aggMean, if_neg hlen]
  simp

/-- The all-failure store used by the C9 witness. -/
def zeroStore : List Record :=
  List.replicate 5 { success := false, duration_ms := 7,
                     timestamp := none, start_time := none }

/-- Witness for C9 at a two-run collection containing the zero-success
store. -/
theorem C9_zero_success_run_included_witness :
    ∃ m, calculate_detailed_metrics zeroStore 30 "go" = some m ∧
      m ∈ collectMetrics [c1Store, zeroStore] 30 "go" ∧
      m.throughput = some 0 ∧ m.avg_latency = 0 ∧
      m.total_requests = zeroStore.length ∧
      aggMean ((collectMetrics [c1Store, zeroStore] 30 "go").map
        (fun x => x.throughput)) ≠ none :=
  C9_zero_success_run_included [c1Store, zeroStore] 30 "go" zeroStore
    (by decide) (by decide) (by decide)

/-- The dictionary returned by the second copy of
`calculate_detailed_metrics`, in `dashboard-generator.py`: identical to
`RunMetrics` except that it carries no `language` tag. -/
structure RunMetricsD where
  total_requests : ℕ
  success_rate : ℚ
  avg_latency : ℚ
  min_latency : ℚ
  max_latency : ℚ
  std_latency : Option ℚ
  p95_latency : ℚ
  p99_latency : ℚ
  throughput : Option ℚ
  test_duration_s : Option ℚ
  deriving DecidableEq, Repr

/-- `calculate_detailed_metrics(df)` from
`src/analysis/dashboard-generator.py` (lines 59–126): the same computation
as the copy in `dashboard_generator.py`, without the `language` key. -/
def calculate_detailed_metrics_dash (df : List Record) (test_duration_s : ℚ) :
    Option RunMetricsD :=
  if df.isEmpty then none
  else
    let total_requests := df.length
    let successful_df := df.filter (fun r => r.success)
    let success_count := successful_df.length
    let success_rate : ℚ :=
      if 0 < total_requests then ((success_count : ℚ) / (total_requests : ℚ)) * 100 else 0
    if successful_df.isEmpty then
      some { total_requests := total_requests, success_rate := 0,
             avg_latency := 0, min_latency := 0, max_latency := 0,
             std_latency := some 0, p95_latency := 0, p99_latency := 0,
             throughput := some 0, test_duration_s := some test_duration_s }
    else
      let final_test_duration_s : Option ℚ :=
        if hasTimestampColumn df = true ∧ 1 < success_count then
          pyMaxOne (msToS (optSub (listMax (successfulTimestamps successful_df))
                                  (listMin (successfulTimestamps successful_df))))
        else some test_duration_s
      let throughput : Option ℚ := optDivBy (success_count : ℚ) final_test_duration_s
      let latencies := successful_df.map (fun r => r.duration_ms)
      some { total_requests := total_requests, success_rate := success_rate,
             avg_latency := seriesMean latencies,
             min_latency := listMinD latencies, max_latency := listMaxD latencies,
             std_latency := seriesVar latencies,
             p95_latency := quantile latencies (95 / 100),
             p99_latency := quantile latencies (99 / 100),
             throughput := throughput, test_duration_s := final_test_duration_s }

/-- Forgetting the `language` tag of a RunMetrics. -/
def dropLanguage (m : RunMetrics) : RunMetricsD :=
  { total_requests := m.total_requests, success_rate := m.success_rate,
    avg_latency := m.avg_latency, min_latency := m.min_latency,
    max_latency := m.max_latency, std_latency := m.std_latency,
    p95_latency := m.p95_latency, p99_latency := m.p99_latency,
    throughput := m.throughput, test_duration_s := m.test_duration_s }

/-- C10: on every store and nominal duration, the two copies of the
metrics routine agree on every shared numeric field; they differ only in
the presence of the `language` tag. -/
theorem C10_two_copies_agree (df : List Record) (dur : ℚ) (lang : String) :
    (calculate_detailed_metrics df dur lang).map dropLanguage =
      calculate_detailed_metrics_dash df dur := by
  simp only [calculate_detailed_metrics, calculate_detailed_metrics_dash]
  split_ifs <;> rfl

/-- Python `Path(f).stem`: the file name with its last extension removed
(the name itself when it has no dot). -/
def stem (s : String) : String :=
  if '.' ∈ s.toList then
    String.mk (((s.toList.reverse.dropWhile (fun c => c ≠ '.')).drop 1).reverse)
  else s

/-- Left-to-right deletion of every occurrence of a non-empty pattern,
fuelled so that the kernel can evaluate it (each step consumes at least
one character, so `length` steps suffice). -/
def removeAllAux : ℕ → List Char → List Char → List Char
  | 0, cs, _ => cs
  | _ + 1, [], _ => []
  | n + 1, c :: rest, pat =>
    if pat.isPrefixOf (c :: rest) then removeAllAux n ((c :: rest).drop pat.length) pat
    else c :: removeAllAux n rest pat

/-- Python `s.replace(pat, '')`: delete every occurrence of `pat`
scanning left to right (identity on the empty pattern, which never occurs
at the call sites). -/
def removeAll (s pat : String) : String :=
  if pat.isEmpty then s
  else String.mk (removeAllAux s.toList.length s.toList pat.toList)

/-- The run directory as seen by `auto_detect_result_files`: whether
`run_dir/raw` exists, and which candidate files are present with non-zero
size (the code's `file_path.exists() and os.path.getsize(file_path) > 0`,
collapsed into one predicate since both failures are skipped alike). -/
structure RawDir where
  hasRaw : Bool
  present : String → Bool

/-- The `patterns` dict of `auto_detect_result_files`, in insertion
(iteration) order. -/
def languagePatterns : List (String × List String) :=
  [("java", ["operational-java.jsonl", "enterprise-java.jsonl"]),
   ("go", ["operational-go.jsonl", "enterprise-go.jsonl"])]

/-- The `legacy_patterns` list of `auto_detect_result_files`. -/
def legacyPatterns : List String := ["operational.jsonl", "enterprise.jsonl"]

/-- `auto_detect_result_files(run_dir)` from `dashboard_generator.py`
(lines 55–105): the mapping is the list of `(sdk_type, filename)` pairs in
insertion order, and the second component is the detected language (`none`
is Python's `None`, returned only when the raw directory is missing).
`sdk_type` is `Path(f).stem.replace('-' + lang, '')` in the language
branch and `f.replace('.jsonl', '')` in the legacy fallback; the first
language whose filter finds at least one present file wins (`break`), and
when the loop finds nothing the legacy fallback labels the result
`'unknown'`. -/
def auto_detect_result_files (d : RawDir) : List (String × String) × Option String :=
  if d.hasRaw = false then ([], none)
  else
    match languagePatterns.find? (fun p => !(p.2.filter d.present).isEmpty) with
    | some p =>
        ((p.2.filter d.present).map
          (fun f => (removeAll (stem f) ("-" ++ p.1), f)), some p.1)
    | none =>
        ((legacyPatterns.filter d.present).map
          (fun f => (removeAll f ".jsonl", f)), some "unknown")

/-- A raw directory holding only `enterprise-go.jsonl`, refuting C8 as
stated. -/
def c8Dir : RawDir :=
  { hasRaw := true, present := fun s => decide (s = "enterprise-go.jsonl") }

/-- C8 counterexample: in `c8Dir` no naming convention is fully present
(go lacks its operational file, java and legacy have nothing), so the
claim demands an empty mapping and an absent label; the code instead
returns the partially-present go set with label `"go"` — and even with no
file at all the label would be `"unknown"`, not absent. -/
theorem C8_counterexample :
    c8Dir.present "operational-go.jsonl" = false
    ∧ c8Dir.present "enterprise-go.jsonl" = true
    ∧ (∀ f ∈ ["operational-java.jsonl", "enterprise-java.jsonl"],
        c8Dir.present f = false)
    ∧ (∀ f ∈ legacyPatterns, c8Dir.present f = false)
    ∧ auto_detect_result_files c8Dir =
        ([("enterprise", "enterprise-go.jsonl")], some "go")
    ∧ auto_detect_result_files { hasRaw := true, present := fun _ => false } =
        ([], some "unknown") := by
  refine ⟨rfl, rfl, by decide, by decide, ?_, ?_⟩ <;> decide

/-- C8 as amended: the resolver is a total function that tries the naming
conventions in priority order (java, then go, then the legacy unlabeled
convention) and returns the first convention with at least one present
non-empty file — not necessarily the fully-present set; every returned
entry is keyed by a canonical variant name and points at a present file;
a missing raw directory gives an empty mapping with an absent label; and
when no recognized file is present at all the label is `"unknown"`, not
absent. -/
theorem C8_amended (d : RawDir) :
    (d.hasRaw = false → auto_detect_result_files d = ([], none))
    ∧ (d.hasRaw = true →
        (d.present "operational-java.jsonl" = true ∨
         d.present "enterprise-java.jsonl" = true) →
        (auto_detect_result_files d).2 = some "java")
    ∧ (d.hasRaw = true →
        d.present "operational-java.jsonl" = false →
        d.present "enterprise-java.jsonl" = false →
        (d.present "operational-go.jsonl" = true ∨
         d.present "enterprise-go.jsonl" = true) →
        (auto_detect_result_files d).2 = some "go")
    ∧ (d.hasRaw = true →
        d.present "operational-java.jsonl" = false →
        d.present "enterprise-java.jsonl" = false →
        d.present "operational-go.jsonl" = false →
        d.present "enterprise-go.jsonl" = false →
        (auto_detect_result_files d).2 = some "unknown"
        ∧ (auto_detect_result_files d).1 =
            (legacyPatterns.filter d.present).map
              (fun f => (removeAll f ".jsonl", f)))
    ∧ (∀ kv ∈ (auto_detect_result_files d).1,
        (kv.1 = "operational" ∨ kv.1 = "enterprise") ∧ d.present kv.2 = true) := by
  refine ⟨?_, ?_, ?_, ?_, ?_⟩
  · intro h
    simp [auto_detect_result_files, h]
  · intro hraw hj
    have hfind : languagePatterns.find? (fun p => !(p.2.filter d.present).isEmpty)
        = some ("java", ["operational-java.jsonl", "enterprise-java.jsonl"]) := by
      rcases hj with h | h
      · simp [languagePatterns, List.find?, List.filter, h]
      · by_cases hoj : d.present "operational-java.jsonl" <;>
          simp [languagePatterns, List.find?, List.filter, h, hoj]
    simp [auto_detect_result_files, hraw, hfind]
  · intro hraw hoj hej hg
    have hfind : languagePatterns.find? (fun p => !(p.2.filter d.present).isEmpty)
        = some ("go", ["operational-go.jsonl", "enterprise-go.jsonl"]) := by
      rcases hg with h | h
      · simp [languagePatterns, List.find?, List.filter, hoj, hej, h]
      · by_cases hog : d.present "operational-go.jsonl" <;>
          simp [languagePatterns, List.find?, List.filter, hoj, hej, h, hog]
    simp [auto_detect_result_files, hraw, hfind]
  · intro hraw h1 h2 h3 h4
    have hfind : languagePatterns.find? (fun p => !(p.2.filter d.present).isEmpty)
        = none := by
      simp [languagePatterns, List.find?, List.filter, h1, h2, h3, h4]
    constructor <;> simp [auto_detect_result_files, hraw, hfind]
  · intro kv hkv
    by_cases hraw : d.hasRaw = true
    · rcases hfind : languagePatterns.find? (fun p => !(p.2.filter d.present).isEmpty)
        with _ | p
      · simp only [auto_detect_result_files, hraw, Bool.true_eq_false, if_false,
          hfind] at hkv
        obtain ⟨f, hf, rfl⟩ := List.mem_map.mp hkv
        have hfp := List.mem_filter.mp hf
        have hfl : f = "operational.jsonl" ∨ f = "enterprise.jsonl" := by
          have := hfp.1
          simp [legacyPatterns] at this
          exact this
        rcases hfl with rfl | rfl
        · exact ⟨Or.inl (by decide), hfp.2⟩
        · exact ⟨Or.inr (by decide), hfp.2⟩
      · have hp := List.mem_of_find?_eq_some hfind
        simp only [auto_detect_result_files, hraw, Bool.true_eq_false, if_false,
          hfind] at hkv
        have hpcases : p = ("java", ["operational-java.jsonl", "enterprise-java.jsonl"])
            ∨ p = ("go", ["operational-go.jsonl", "enterprise-go.jsonl"]) := by
          simpa [languagePatterns] using hp
        obtain ⟨f, hf, rfl⟩ := List.mem_map.mp hkv
        have hfp := List.mem_filter.mp hf
        rcases hpcases with rfl | rfl
        · have hfl : f = "operational-java.jsonl" ∨ f = "enterprise-java.jsonl" := by
            have := hfp.1
            simpa using this
          rcases hfl with rfl | rfl
          · exact ⟨Or.inl (by decide), hfp.2⟩
          · exact ⟨Or.inr (by decide), hfp.2⟩
        · have hfl : f = "operational-go.jsonl" ∨ f = "enterprise-go.jsonl" := by
            have := hfp.1
            simpa using this
          rcases hfl with rfl | rfl
          · exact ⟨Or.inl (by decide), hfp.2⟩
          · exact ⟨Or.inr (by decide), hfp.2⟩
    · have hraw' : d.hasRaw = false := by
        revert hraw
        cases d.hasRaw <;> simp
      simp [auto_detect_result_files, hraw'] at hkv

/-- Witness for C8: the missing-directory, go-priority, and no-files arms
applied at concrete directories. -/
theorem C8_amended_witness :
    auto_detect_result_files { hasRaw := false, present := fun _ => false } = ([], none)
    ∧ (auto_detect_result_files c8Dir).2 = some "go"
    ∧ (auto_detect_result_files { hasRaw := true, present := fun _ => false }).2
        = some "unknown" :=
  ⟨(C8_amended { hasRaw := false, present := fun _ => false }).1 rfl,
   (C8_amended c8Dir).2.2.1 rfl (by decide) (by decide) (Or.inr (by decide)),
   ((C8_amended { hasRaw := true, present := fun _ => false }).2.2.2.1
     rfl rfl rfl rfl rfl).1⟩
